import Mathlib

/-!
Shallow embedding of src/app.py: a FastAPI + SQLModel CRUD service over four
entities (Venue, Schedule, Section, Event) stored in a relational database.

Records are modelled as association lists from column/field names to values.
Pydantic request-body validation (field presence, defaults, the
extra='forbid' configuration) is modelled explicitly; values themselves are
carried opaquely, since the handlers perform no value-level computation.
-/

namespace App

/-- JSON-ish scalar values carried by payloads and stored rows.  Times,
dates and URLs are carried as opaque strings; the free-form JSON dict
columns (locations, registration) are carried as string/string maps. -/
inductive Val where
  | null
  | str (s : String)
  | int (i : Int)
  | bool (b : Bool)
  | dict (entries : List (String × String))
deriving DecidableEq, Repr

/-- Errors surfaced over HTTP: request validation failures (FastAPI/pydantic,
status 422, raised before the handler body runs) and HTTPException raised
inside a handler (here always status 404). -/
inductive Err where
  | validation (msg : String)
  | http (status : Nat) (detail : String)
deriving DecidableEq, Repr

/-- A record (a JSON object payload, or a stored row): field name/value pairs. -/
abbrev Rec := List (String × Val)

/-- Attribute read: the value of the first field named k, if any. -/
def lookupF : Rec → String → Option Val
  | [], _ => none
  | (k0, v0) :: r, k => if k0 = k then some v0 else lookupF r k

/-- Python setattr on a model instance: overwrite the field if present,
add it otherwise. -/
def setF : Rec → String → Val → Rec
  | [], k, v => [(k, v)]
  | (k0, v0) :: r, k, v => if k0 = k then (k, v) :: r else (k0, v0) :: setF r k v

/-- One declared model field: its name, and its default value (none means the
field is required, i.e. it was annotated without any default). -/
structure FieldSpec where
  name : String
  default : Option Val
deriving DecidableEq, Repr

/-- A pydantic/SQLModel model schema: the declared fields, and whether the
model carries model_config = ConfigDict(extra='forbid') (the default pydantic
behaviour otherwise is extra='ignore': unknown keys are dropped). -/
structure Schema where
  fields : List FieldSpec
  extraForbid : Bool
deriving DecidableEq, Repr

def schemaKeys (sch : Schema) : List String :=
  sch.fields.map (·.name)

def schemaHas (sch : Schema) (k : String) : Bool :=
  sch.fields.any (fun f => f.name = k)

/-- Field-by-field validation: a present key keeps its payload value, an
absent key falls back to the declared default, and an absent key of a
required field is a validation error. -/
def validateFields (fs : List FieldSpec) (p : Rec) : Except Err Rec :=
  match fs with
  | [] => .ok []
  | f :: rest =>
    match lookupF p f.name, f.default with
    | some v, _ =>
      match validateFields rest p with
      | .ok r => .ok ((f.name, v) :: r)
      | .error e => .error e
    | none, some d =>
      match validateFields rest p with
      | .ok r => .ok ((f.name, d) :: r)
      | .error e => .error e
    | none, none => .error (.validation (f.name ++ ": Field required"))

/-- Does the payload carry a key that is not a declared field? -/
def hasExtraKey (fs : List FieldSpec) (p : Rec) : Bool :=
  p.any (fun kv => fs.all (fun f => f.name ≠ kv.1))

/-- Model_validate of a request body against a model schema.  Models with
extra='forbid' reject any unknown key; other models ignore unknown keys. -/
def modelValidate (sch : Schema) (p : Rec) : Except Err Rec :=
  if sch.extraForbid && hasExtraKey sch.fields p then
    .error (.validation "Extra inputs are not permitted")
  else validateFields sch.fields p

/-- Model_dump(exclude_unset=True): exactly the keys explicitly present in the
request payload that are declared model fields, with their payload values. -/
def dumpExcludeUnset (sch : Schema) (p : Rec) : Rec :=
  p.filter (fun kv => schemaHas sch kv.1)

/-- The setattr loop of the update handlers: for key, value in data.items():
setattr(db_obj, key, value). -/
def applyUpdates (u : Rec) (r : Rec) : Rec :=
  match u with
  | [] => r
  | (k, v) :: rest => applyUpdates rest (setF r k v)

/-- A database table: rows in storage (insertion) order. -/
abbrev Table := List Rec

/-- The primary-key column of a stored row. -/
def recId (r : Rec) : Option Val := lookupF r "id"

/-- Session.get(Model, i): the (first) row whose id column equals i. -/
def tGet (t : Table) (i : Int) : Option Rec :=
  match t with
  | [] => none
  | r :: rest => if recId r = some (.int i) then some r else tGet rest i

/-- The largest integer id present in the table (0 when none). -/
def maxId : Table → Int
  | [] => 0
  | r :: t =>
    max (match recId r with | some (.int i) => i | _ => 0) (maxId t)

/-- SQLite INTEGER PRIMARY KEY assignment on insert: one more than the
largest existing id. -/
def nextId (t : Table) : Int := maxId t + 1

/-- Session.delete + commit: remove every row with the given id. -/
def tDelete (t : Table) (i : Int) : Table :=
  t.filter (fun r => ¬ recId r = some (.int i))

/-- SQLAlchemy's default relationship cascade on deletion of a parent row:
the loaded children (the rows whose foreign-key column references the parent)
are de-associated by setting that column to NULL; the children themselves are
not deleted. -/
def nullifyFK (t : Table) (fk : String) (i : Int) : Table :=
  t.map (fun r => if lookupF r fk = some (.int i) then setF r fk .null else r)

/-- The rows of a child table whose foreign-key column references id i
(the loaded value of a one-to-many Relationship attribute). -/
def childrenOf (t : Table) (fk : String) (i : Int) : List Rec :=
  t.filter (fun r => lookupF r fk = some (.int i))

/-- Response-model serialization of a row: the listed response fields, each
populated from the attribute of the same name when it exists. -/
def projectFields (names : List String) (r : Rec) : Rec :=
  names.filterMap (fun n => (lookupF r n).map (fun v => (n, v)))

/-- Generic create handler: validate the body against the create model
(FastAPI raises 422 before the handler when this fails, so nothing is
persisted), build the table row (validated fields, then the table-only
columns at their defaults, then the assigned id), insert it, and return the
refreshed row.  The second component is the post-state of the table. -/
def createOp (sch : Schema) (tdef : Rec) (t : Table) (p : Rec) :
    Except Err Rec × Table :=
  match modelValidate sch p with
  | .error e => (.error e, t)
  | .ok fs =>
    let r := fs ++ tdef ++ [("id", .int (nextId t))]
    (.ok r, t ++ [r])

/-- Generic get-by-id handler body: session.get, 404 when absent. -/
def getOp (notFoundDetail : String) (t : Table) (i : Int) : Except Err Rec :=
  match tGet t i with
  | some r => .ok r
  | none => .error (.http 404 notFoundDetail)

/-- Generic patch handler: the body is validated against the update model
before the handler runs; then session.get (404 when absent); then the
setattr loop over model_dump(exclude_unset=True); then commit. -/
def updateOp (sch : Schema) (notFoundDetail : String) (t : Table) (i : Int)
    (p : Rec) : Except Err Rec × Table :=
  match modelValidate sch p with
  | .error e => (.error e, t)
  | .ok _ =>
    match tGet t i with
    | none => (.error (.http 404 notFoundDetail), t)
    | some r =>
      let r2 := applyUpdates (dumpExcludeUnset sch p) r
      (.ok r2, t.map (fun x => if recId x = some (.int i) then r2 else x))

/-- Generic delete handler: session.get (404 when absent), session.delete,
and the acknowledgement value, a JSON object with field ok set to true. -/
def deleteOp (notFoundDetail : String) (t : Table) (i : Int) :
    Except Err Rec × Table :=
  match tGet t i with
  | none => (.error (.http 404 notFoundDetail), t)
  | some _ => (.ok [("ok", .bool true)], tDelete t i)

/-- OFFSET clause semantics: SQLite treats a negative offset as 0. -/
def sqlOffset (o : Int) (t : Table) : Table := t.drop o.toNat

/-- LIMIT clause semantics: SQLite places no upper bound on the number of
returned rows when the limit expression is negative. -/
def sqlLimit (l : Int) (t : Table) : Table :=
  if l < 0 then t else t.take l.toNat

/-- Generic list handler: limit is declared Query(default=100, le=100), so a
limit above 100 is rejected by request validation (422) before the handler;
there is no lower bound on either parameter.  Otherwise the page is
select(Model).offset(offset).limit(limit) in storage order. -/
def listOp (t : Table) (offset limit : Int) : Except Err (List Rec) :=
  if 100 < limit then
    .error (.validation "Input should be less than or equal to 100")
  else .ok (sqlLimit limit (sqlOffset offset t))

/-! Entity schemas, read off the model declarations in src/app.py. -/

/-- ScheduleBase (lines 23-33): extra='forbid'; url, title, venue and
schedule_datetime required; venue_url and description default None;
locations and registration default to an empty dict (default_factory=dict). -/
def scheduleBaseSchema : Schema :=
  ⟨[⟨"url", none⟩, ⟨"title", none⟩, ⟨"venue", none⟩,
    ⟨"venue_url", some .null⟩, ⟨"schedule_datetime", none⟩,
    ⟨"locations", some (.dict [])⟩, ⟨"registration", some (.dict [])⟩,
    ⟨"description", some .null⟩], true⟩

/-- ScheduleUpdate (lines 50-59): every ScheduleBase field redeclared with
default None; extra='forbid' inherited from ScheduleBase's model_config. -/
def scheduleUpdateSchema : Schema :=
  ⟨[⟨"url", some .null⟩, ⟨"title", some .null⟩, ⟨"venue", some .null⟩,
    ⟨"venue_url", some .null⟩, ⟨"schedule_datetime", some .null⟩,
    ⟨"locations", some .null⟩, ⟨"registration", some .null⟩,
    ⟨"description", some .null⟩], true⟩

/-- SectionBase (lines 62-67): extra='forbid'; title and sequence required;
status is annotated Optional[str] with no default, which under pydantic v2
makes it a required (but nullable) field. -/
def sectionBaseSchema : Schema :=
  ⟨[⟨"title", none⟩, ⟨"sequence", none⟩, ⟨"status", none⟩], true⟩

/-- SectionUpdate (lines 87-91): a plain SQLModel (no extra='forbid', so
unknown keys are ignored) with fields id, title, sequence, status, all
defaulting to None.  Note that it does declare id. -/
def sectionUpdateSchema : Schema :=
  ⟨[⟨"id", some .null⟩, ⟨"title", some .null⟩, ⟨"sequence", some .null⟩,
    ⟨"status", some .null⟩], false⟩

/-- EventBase (lines 95-104): extra='forbid'; start_time, end_time,
event_date, location required; section_id defaults to None. -/
def eventBaseSchema : Schema :=
  ⟨[⟨"start_time", none⟩, ⟨"end_time", none⟩, ⟨"event_date", none⟩,
    ⟨"location", none⟩, ⟨"section_id", some .null⟩], true⟩

/-- EventUpdate (lines 121-125): a plain SQLModel (unknown keys ignored)
with the four EventBase value fields defaulting to None; no id field and no
section_id field. -/
def eventUpdateSchema : Schema :=
  ⟨[⟨"start_time", some .null⟩, ⟨"end_time", some .null⟩,
    ⟨"event_date", some .null⟩, ⟨"location", some .null⟩], false⟩

/-- VenueBase (lines 140-148): no extra='forbid' configuration, so unknown
payload keys are silently ignored (pydantic default extra='ignore'); name
required, the six contact fields default to None. -/
def venueBaseSchema : Schema :=
  ⟨[⟨"name", none⟩, ⟨"Tel", some .null⟩, ⟨"Address", some .null⟩,
    ⟨"Mail", some .null⟩, ⟨"url", some .null⟩, ⟨"Fax", some .null⟩,
    ⟨"Contact", some .null⟩], false⟩

/-- VenueUpdate (lines 165-172): every VenueBase field redeclared with
default None; unknown keys still ignored. -/
def venueUpdateSchema : Schema :=
  ⟨[⟨"name", some .null⟩, ⟨"Tel", some .null⟩, ⟨"Address", some .null⟩,
    ⟨"Mail", some .null⟩, ⟨"url", some .null⟩, ⟨"Fax", some .null⟩,
    ⟨"Contact", some .null⟩], false⟩

/-- Response fields of SectionPublic: the SectionBase fields plus id. -/
def sectionPublicFields : List String := ["title", "sequence", "status", "id"]

/-- Response fields of EventPublic: the EventBase fields plus id. -/
def eventPublicFields : List String :=
  ["start_time", "end_time", "event_date", "location", "section_id", "id"]

/-- Response fields of SchedulePublic: the ScheduleBase fields plus id. -/
def schedulePublicFields : List String :=
  ["url", "title", "venue", "venue_url", "schedule_datetime", "locations",
   "registration", "description", "id"]

/-- The database: one table per entity, in a single SQLite file. -/
structure DB where
  venues : Table
  schedules : Table
  sections : Table
  events : Table
deriving DecidableEq, Repr

/-- The state after create_db_and_tables (drop_all + create_all): empty. -/
def emptyDB : DB := ⟨[], [], [], []⟩

/-! Venue handlers (src/app.py lines 370-421). -/

def create_venue (db : DB) (p : Rec) : Except Err Rec × DB :=
  match createOp venueBaseSchema [] db.venues p with
  | (.ok r, t) => (.ok r, { db with venues := t })
  | (.error e, _) => (.error e, db)

def read_venues (db : DB) (offset limit : Int) : Except Err (List Rec) :=
  listOp db.venues offset limit

def read_venue (db : DB) (i : Int) : Except Err Rec :=
  getOp "Venue not found" db.venues i

def update_venue (db : DB) (i : Int) (p : Rec) : Except Err Rec × DB :=
  match updateOp venueUpdateSchema "Venue not found" db.venues i p with
  | (.ok r, t) => (.ok r, { db with venues := t })
  | (.error e, _) => (.error e, db)

def delete_venue (db : DB) (i : Int) : Except Err Rec × DB :=
  match deleteOp "Venue not found" db.venues i with
  | (.ok a, t) => (.ok a, { db with venues := t })
  | (.error e, _) => (.error e, db)

/-! Event handlers (src/app.py lines 202-253). -/

def create_event (db : DB) (p : Rec) : Except Err Rec × DB :=
  match createOp eventBaseSchema [] db.events p with
  | (.ok r, t) => (.ok r, { db with events := t })
  | (.error e, _) => (.error e, db)

def read_events (db : DB) (offset limit : Int) : Except Err (List Rec) :=
  listOp db.events offset limit

/-- GET /events/{id}: the handler returns the Event row (the response model
EventPublicWithSection additionally serializes the section relationship,
which none of the claims depend on). -/
def read_event (db : DB) (i : Int) : Except Err Rec :=
  getOp "Event not found" db.events i

def update_event (db : DB) (i : Int) (p : Rec) : Except Err Rec × DB :=
  match updateOp eventUpdateSchema "Event not found" db.events i p with
  | (.ok r, t) => (.ok r, { db with events := t })
  | (.error e, _) => (.error e, db)

def delete_event (db : DB) (i : Int) : Except Err Rec × DB :=
  match deleteOp "Event not found" db.events i with
  | (.ok a, t) => (.ok a, { db with events := t })
  | (.error e, _) => (.error e, db)

/-! Section handlers (src/app.py lines 256-310). -/

/-- POST /sections/: Section.model_validate(section) takes the SectionCreate
fields and leaves the table-only column schedule_id at its default None. -/
def create_section (db : DB) (p : Rec) : Except Err Rec × DB :=
  match createOp sectionBaseSchema [("schedule_id", .null)] db.sections p with
  | (.ok r, t) => (.ok r, { db with sections := t })
  | (.error e, _) => (.error e, db)

def read_sections (db : DB) (offset limit : Int) : Except Err (List Rec) :=
  listOp db.sections offset limit

/-- The serialized GET /sections/{id} response (SectionPublicWithEventes). -/
structure SectionResp where
  base : Rec
  eventes : List Rec
deriving DecidableEq, Repr

/-- List-valued attribute access on a Section ORM instance: the only
list-valued attribute the table model Section declares (lines 70-76) is the
relationship named events, whose loaded value is the Event rows whose
section_id references this section. -/
def sectionListAttr (db : DB) (i : Int) (name : String) : Option (List Rec) :=
  if name = "events" then some (childrenOf db.events "section_id" i) else none

/-- GET /sections/{id}: 404 when absent; otherwise the row serialized through
SectionPublicWithEventes (lines 132-133).  That response model declares its
list field under the name eventes with default []; from_attributes population
reads the attribute of that exact name and falls back to the declared default
when the instance has no such attribute. -/
def read_section (db : DB) (i : Int) : Except Err SectionResp :=
  match tGet db.sections i with
  | none => .error (.http 404 "Section not found")
  | some s =>
    .ok { base := projectFields sectionPublicFields s,
          eventes :=
            match sectionListAttr db i "eventes" with
            | some l => l.map (projectFields eventPublicFields)
            | none => [] }

def update_section (db : DB) (i : Int) (p : Rec) : Except Err Rec × DB :=
  match updateOp sectionUpdateSchema "Section not found" db.sections i p with
  | (.ok r, t) => (.ok r, { db with sections := t })
  | (.error e, _) => (.error e, db)

/-- DELETE /sections/{id}: deleting a Section makes SQLAlchemy de-associate
the Events loaded through the events relationship by nulling their
section_id (default relationship cascade: no delete cascade configured). -/
def delete_section (db : DB) (i : Int) : Except Err Rec × DB :=
  match deleteOp "Section not found" db.sections i with
  | (.ok a, t) =>
    (.ok a, { db with sections := t,
                      events := nullifyFK db.events "section_id" i })
  | (.error e, _) => (.error e, db)

/-! Schedule handlers (src/app.py lines 313-367). -/

def create_schedule (db : DB) (p : Rec) : Except Err Rec × DB :=
  match createOp scheduleBaseSchema [] db.schedules p with
  | (.ok r, t) => (.ok r, { db with schedules := t })
  | (.error e, _) => (.error e, db)

def read_schedules (db : DB) (offset limit : Int) : Except Err (List Rec) :=
  listOp db.schedules offset limit

/-- The serialized GET /schedules/{id} response (SchedulePublicWithSections). -/
structure ScheduleResp where
  base : Rec
  sections : List Rec
deriving DecidableEq, Repr

/-- List-valued attribute access on a Schedule ORM instance: the relationship
named sections (lines 36-39), loaded as the Section rows whose schedule_id
references this schedule. -/
def scheduleListAttr (db : DB) (i : Int) (name : String) : Option (List Rec) :=
  if name = "sections" then some (childrenOf db.sections "schedule_id" i)
  else none

/-- GET /schedules/{id}: 404 when absent; otherwise the row serialized
through SchedulePublicWithSections (lines 136-137), whose list field is
named sections and so matches the relationship attribute. -/
def read_schedule (db : DB) (i : Int) : Except Err ScheduleResp :=
  match tGet db.schedules i with
  | none => .error (.http 404 "Schedule not found")
  | some s =>
    .ok { base := projectFields schedulePublicFields s,
          sections :=
            match scheduleListAttr db i "sections" with
            | some l => l.map (projectFields sectionPublicFields)
            | none => [] }

def update_schedule (db : DB) (i : Int) (p : Rec) : Except Err Rec × DB :=
  match updateOp scheduleUpdateSchema "Schedule not found" db.schedules i p with
  | (.ok r, t) => (.ok r, { db with schedules := t })
  | (.error e, _) => (.error e, db)

/-- DELETE /schedules/{id}: deleting a Schedule makes SQLAlchemy de-associate
the Sections loaded through the sections relationship by nulling their
schedule_id (default relationship cascade: no delete cascade configured). -/
def delete_schedule (db : DB) (i : Int) : Except Err Rec × DB :=
  match deleteOp "Schedule not found" db.schedules i with
  | (.ok a, t) =>
    (.ok a, { db with schedules := t,
                      sections := nullifyFK db.sections "schedule_id" i })
  | (.error e, _) => (.error e, db)

/-! Helper lemmas about the embedding. -/

theorem lookupF_setF_self (r : Rec) (k : String) (v : Val) :
    lookupF (setF r k v) k = some v := by
  induction r with
  | nil => simp [setF, lookupF]
  | cons hd tl ih =>
    obtain ⟨k0, v0⟩ := hd
    by_cases h : k0 = k
    · simp [setF, h, lookupF]
    · simp [setF, h, lookupF, ih]

theorem lookupF_setF_ne (r : Rec) {k1 k : String} (v : Val) (h : k1 ≠ k) :
    lookupF (setF r k1 v) k = lookupF r k := by
  induction r with
  | nil => simp [setF, lookupF, h]
  | cons hd tl ih =>
    obtain ⟨k0, v0⟩ := hd
    by_cases h0 : k0 = k1
    · subst h0
      simp [setF, lookupF, h]
    · simp only [setF, if_neg h0, lookupF]
      split <;> simp [ih]

theorem lookupF_applyUpdates_not_mem (u : Rec) (r : Rec) {k : String}
    (h : k ∉ u.map Prod.fst) : lookupF (applyUpdates u r) k = lookupF r k := by
  induction u generalizing r with
  | nil => rfl
  | cons hd tl ih =>
    obtain ⟨k0, v0⟩ := hd
    simp only [List.map_cons, List.mem_cons, not_or] at h
    rw [applyUpdates, ih _ h.2, lookupF_setF_ne _ _ (fun e => h.1 e.symm)]

theorem lookupF_applyUpdates_mem (u : Rec) (r : Rec) {k : String} {v : Val}
    (hnd : (u.map Prod.fst).Nodup) (h : lookupF u k = some v) :
    lookupF (applyUpdates u r) k = some v := by
  induction u generalizing r with
  | nil => simp [lookupF] at h
  | cons hd tl ih =>
    obtain ⟨k0, v0⟩ := hd
    simp only [List.map_cons, List.nodup_cons] at hnd
    by_cases e : k0 = k
    · subst e
      rw [lookupF, if_pos rfl] at h
      rw [applyUpdates, lookupF_applyUpdates_not_mem tl _ hnd.1,
        lookupF_setF_self]
      exact h
    · rw [lookupF, if_neg e] at h
      rw [applyUpdates]
      exact ih _ hnd.2 h

theorem lookupF_filter (p : Rec) (g : String → Bool) {k : String}
    (hg : g k = true) :
    lookupF (p.filter (fun kv => g kv.1)) k = lookupF p k := by
  induction p with
  | nil => rfl
  | cons hd tl ih =>
    obtain ⟨k0, v0⟩ := hd
    by_cases e : k0 = k
    · subst e
      simp [List.filter_cons, hg, lookupF]
    · by_cases h0 : g k0 <;> simp [List.filter_cons, h0, lookupF, e, ih]

theorem lookupF_eq_none_of_not_mem {r : Rec} {k : String}
    (h : k ∉ r.map Prod.fst) : lookupF r k = none := by
  induction r with
  | nil => rfl
  | cons hd tl ih =>
    obtain ⟨k0, v0⟩ := hd
    simp only [List.map_cons, List.mem_cons, not_or] at h
    rw [lookupF, if_neg (fun e => h.1 e.symm)]
    exact ih h.2

theorem mem_of_lookupF_eq_some {r : Rec} {k : String} {v : Val}
    (h : lookupF r k = some v) : k ∈ r.map Prod.fst := by
  by_contra hc
  rw [lookupF_eq_none_of_not_mem hc] at h
  exact Option.noConfusion h

theorem lookupF_append_some {a b : Rec} {k : String} {v : Val}
    (h : lookupF a k = some v) : lookupF (a ++ b) k = some v := by
  induction a with
  | nil => simp [lookupF] at h
  | cons hd tl ih =>
    obtain ⟨k0, v0⟩ := hd
    rw [lookupF] at h
    rw [List.cons_append, lookupF]
    split at h <;> split <;> simp_all

theorem lookupF_append_none {a b : Rec} {k : String}
    (h : lookupF a k = none) : lookupF (a ++ b) k = lookupF b k := by
  induction a with
  | nil => rfl
  | cons hd tl ih =>
    obtain ⟨k0, v0⟩ := hd
    rw [lookupF] at h
    rw [List.cons_append, lookupF]
    split at h <;> split <;> simp_all

theorem schemaHas_iff {sch : Schema} {k : String} :
    schemaHas sch k = true ↔ k ∈ schemaKeys sch := by
  simp [schemaHas, schemaKeys, List.any_eq_true, List.mem_map]

theorem mem_keys_dump_payload {sch : Schema} {p : Rec} {k : String}
    (h : k ∈ (dumpExcludeUnset sch p).map Prod.fst) : k ∈ p.map Prod.fst := by
  obtain ⟨kv, hkv, rfl⟩ := List.mem_map.mp h
  exact List.mem_map_of_mem _ (List.mem_of_mem_filter hkv)

theorem mem_keys_dump_schema {sch : Schema} {p : Rec} {k : String}
    (h : k ∈ (dumpExcludeUnset sch p).map Prod.fst) :
    schemaHas sch k = true := by
  obtain ⟨kv, hkv, rfl⟩ := List.mem_map.mp h
  rw [dumpExcludeUnset] at hkv
  have h2 := List.of_mem_filter hkv
  exact h2

theorem nodup_keys_dump {sch : Schema} {p : Rec}
    (h : (p.map Prod.fst).Nodup) :
    ((dumpExcludeUnset sch p).map Prod.fst).Nodup :=
  h.sublist ((List.filter_sublist p).map Prod.fst)

theorem lookupF_dump {sch : Schema} {p : Rec} {k : String}
    (hk : schemaHas sch k = true) :
    lookupF (dumpExcludeUnset sch p) k = lookupF p k :=
  lookupF_filter p (schemaHas sch) hk

theorem validateFields_keys {fs : List FieldSpec} {p r : Rec}
    (h : validateFields fs p = .ok r) : r.map Prod.fst = fs.map (·.name) := by
  induction fs generalizing r with
  | nil =>
    simp only [validateFields, Except.ok.injEq] at h
    subst h
    rfl
  | cons f rest ih =>
    rw [validateFields] at h
    cases hl : lookupF p f.name with
    | some v =>
      simp only [hl] at h
      cases hr : validateFields rest p with
      | ok rr =>
        simp only [hr] at h
        cases h
        simp [ih hr]
      | error e =>
        simp only [hr] at h
        exact Except.noConfusion h
    | none =>
      simp only [hl] at h
      cases hd : f.default with
      | some d =>
        simp only [hd] at h
        cases hr : validateFields rest p with
        | ok rr =>
          simp only [hr] at h
          cases h
          simp [ih hr]
        | error e =>
          simp only [hr] at h
          exact Except.noConfusion h
      | none =>
        simp only [hd] at h
        exact Except.noConfusion h

theorem validateFields_lookup {fs : List FieldSpec} {p r : Rec}
    (h : validateFields fs p = .ok r) {k : String} {v : Val}
    (hp : lookupF p k = some v) (hk : k ∈ fs.map (·.name)) :
    lookupF r k = some v := by
  induction fs generalizing r with
  | nil => simp at hk
  | cons f rest ih =>
    rw [validateFields] at h
    by_cases e : f.name = k
    · subst e
      simp only [hp] at h
      cases hr : validateFields rest p with
      | ok rr =>
        simp only [hr] at h
        cases h
        simp [lookupF]
      | error e2 =>
        simp only [hr] at h
        exact Except.noConfusion h
    · have hk2 : k ∈ rest.map (·.name) := by
        rw [List.map_cons] at hk
        rcases List.mem_cons.mp hk with e2 | h2
        · exact absurd e2.symm e
        · exact h2
      cases hl : lookupF p f.name with
      | some v2 =>
        simp only [hl] at h
        cases hr : validateFields rest p with
        | ok rr =>
          simp only [hr] at h
          cases h
          rw [lookupF, if_neg e]
          exact ih hr hk2
        | error e2 =>
          simp only [hr] at h
          exact Except.noConfusion h
      | none =>
        simp only [hl] at h
        cases hd : f.default with
        | some d =>
          simp only [hd] at h
          cases hr : validateFields rest p with
          | ok rr =>
            simp only [hr] at h
            cases h
            rw [lookupF, if_neg e]
            exact ih hr hk2
          | error e2 =>
            simp only [hr] at h
            exact Except.noConfusion h
        | none =>
          simp only [hd] at h
          exact Except.noConfusion h

theorem validateFields_required_error {fs : List FieldSpec} {p : Rec}
    {f : FieldSpec} (hf : f ∈ fs) (hreq : f.default = none)
    (hmiss : lookupF p f.name = none) :
    ∃ m, validateFields fs p = .error (.validation m) := by
  induction fs with
  | nil => simp at hf
  | cons g rest ih =>
    rw [validateFields]
    rcases List.mem_cons.mp hf with rfl | hf2
    · rw [hmiss, hreq]
      exact ⟨_, rfl⟩
    · cases hl : lookupF p g.name with
      | some v =>
        obtain ⟨m, hm⟩ := ih hf2
        rw [hm]
        exact ⟨m, rfl⟩
      | none =>
        cases hd : g.default with
        | some d =>
          obtain ⟨m, hm⟩ := ih hf2
          rw [hm]
          exact ⟨m, rfl⟩
        | none => exact ⟨_, rfl⟩

theorem modelValidate_ok {sch : Schema} {p fs : Rec}
    (h : modelValidate sch p = .ok fs) :
    validateFields sch.fields p = .ok fs := by
  unfold modelValidate at h
  split at h
  · exact Except.noConfusion h
  · exact h

theorem modelValidate_required_error {sch : Schema} {p : Rec}
    {f : FieldSpec} (hf : f ∈ sch.fields) (hreq : f.default = none)
    (hmiss : lookupF p f.name = none) :
    ∃ m, modelValidate sch p = .error (.validation m) := by
  unfold modelValidate
  split
  · exact ⟨_, rfl⟩
  · exact validateFields_required_error hf hreq hmiss

theorem modelValidate_extra_error {sch : Schema} {p : Rec}
    (hforbid : sch.extraForbid = true) {k : String} {v : Val}
    (hkv : (k, v) ∈ p) (hk : schemaHas sch k = false) :
    modelValidate sch p =
      .error (.validation "Extra inputs are not permitted") := by
  have hx : hasExtraKey sch.fields p = true := by
    rw [hasExtraKey, List.any_eq_true]
    refine ⟨(k, v), hkv, ?_⟩
    rw [List.all_eq_true]
    intro f hfm
    rw [decide_eq_true_eq]
    intro e
    rw [schemaHas, List.any_eq_false] at hk
    exact absurd (decide_eq_true e) (hk f hfm)
  rw [modelValidate, hforbid, hx]
  rfl

theorem le_maxId {t : Table} {r : Rec} {j : Int} (hr : r ∈ t)
    (hid : recId r = some (.int j)) : j ≤ maxId t := by
  induction t with
  | nil => simp at hr
  | cons hd tl ih =>
    rcases List.mem_cons.mp hr with rfl | h2
    · rw [maxId, hid]
      exact le_max_left _ _
    · exact le_trans (ih h2) (by rw [maxId]; exact le_max_right _ _)

theorem tGet_eq_none_of_forall {t : Table} {i : Int}
    (h : ∀ r ∈ t, ¬ recId r = some (.int i)) : tGet t i = none := by
  induction t with
  | nil => rfl
  | cons hd tl ih =>
    rw [tGet, if_neg (h hd (List.mem_cons_self hd tl))]
    exact ih (fun r hr => h r (List.mem_cons_of_mem hd hr))

theorem tGet_fresh (t : Table) : tGet t (nextId t) = none :=
  tGet_eq_none_of_forall (fun r hr hid => by
    have := le_maxId hr hid
    rw [nextId] at this
    omega)

theorem tGet_append {t1 t2 : Table} {i : Int} (h : tGet t1 i = none) :
    tGet (t1 ++ t2) i = tGet t2 i := by
  induction t1 with
  | nil => rfl
  | cons hd tl ih =>
    rw [tGet] at h
    rw [List.cons_append, tGet]
    split at h
    · exact Option.noConfusion h
    · rw [if_neg (by assumption)]
      exact ih h

theorem tGet_mem {t : Table} {i : Int} {r : Rec} (h : tGet t i = some r) :
    r ∈ t ∧ recId r = some (.int i) := by
  induction t with
  | nil => exact Option.noConfusion h
  | cons hd tl ih =>
    rw [tGet] at h
    split at h
    · cases h
      exact ⟨List.mem_cons_self _ _, by assumption⟩
    · obtain ⟨hm, hid⟩ := ih h
      exact ⟨List.mem_cons_of_mem hd hm, hid⟩

theorem tGet_tDelete_self (t : Table) (i : Int) :
    tGet (tDelete t i) i = none := by
  apply tGet_eq_none_of_forall
  intro r hr
  have := List.of_mem_filter hr
  rw [decide_eq_true_eq] at this
  exact this

/-! Shape lemmas for the generic handler bodies. -/

theorem createOp_ok_shape {sch : Schema} {tdef : Rec} {t : Table} {p : Rec}
    {fs : Rec} (h : modelValidate sch p = .ok fs) :
    createOp sch tdef t p =
      (.ok (fs ++ tdef ++ [("id", .int (nextId t))]),
       t ++ [fs ++ tdef ++ [("id", .int (nextId t))]]) := by
  rw [createOp, h]

theorem createOp_ok_inv {sch : Schema} {tdef : Rec} {t t2 : Table}
    {p r : Rec} (h : createOp sch tdef t p = (.ok r, t2)) :
    ∃ fs, modelValidate sch p = .ok fs ∧
      r = fs ++ tdef ++ [("id", .int (nextId t))] ∧ t2 = t ++ [r] := by
  rw [createOp] at h
  split at h
  · cases h
  · cases h
    exact ⟨_, by assumption, rfl, rfl⟩

theorem createOp_error_shape {sch : Schema} {tdef : Rec} {t : Table}
    {p : Rec} {e : Err} (h : modelValidate sch p = .error e) :
    createOp sch tdef t p = (.error e, t) := by
  rw [createOp, h]

theorem getOp_404 {d : String} {t : Table} {i : Int} (h : tGet t i = none) :
    getOp d t i = .error (.http 404 d) := by
  rw [getOp, h]

theorem getOp_ok {d : String} {t : Table} {i : Int} {r : Rec}
    (h : tGet t i = some r) : getOp d t i = .ok r := by
  rw [getOp, h]

theorem updateOp_ok_shape {sch : Schema} {d : String} {t t2 : Table}
    {i : Int} {p r r2 : Rec} (hget : tGet t i = some r)
    (h : updateOp sch d t i p = (.ok r2, t2)) :
    r2 = applyUpdates (dumpExcludeUnset sch p) r ∧
      t2 = t.map (fun x => if recId x = some (.int i) then r2 else x) := by
  rw [updateOp] at h
  split at h
  · cases h
  · rw [hget] at h
    cases h
    exact ⟨rfl, rfl⟩

theorem updateOp_404 {sch : Schema} {d : String} {t : Table} {i : Int}
    {p fs : Rec} (hget : tGet t i = none)
    (hval : modelValidate sch p = .ok fs) :
    updateOp sch d t i p = (.error (.http 404 d), t) := by
  rw [updateOp, hval, hget]

theorem updateOp_snd_not_found {sch : Schema} {d : String} {t : Table}
    {i : Int} {p : Rec} (hget : tGet t i = none) :
    (updateOp sch d t i p).2 = t := by
  rw [updateOp]
  split
  · rfl
  · rw [hget]

theorem deleteOp_404 {d : String} {t : Table} {i : Int}
    (hget : tGet t i = none) :
    deleteOp d t i = (.error (.http 404 d), t) := by
  rw [deleteOp, hget]

theorem deleteOp_ok {d : String} {t : Table} {i : Int} {r : Rec}
    (hget : tGet t i = some r) :
    deleteOp d t i = (.ok [("ok", .bool true)], tDelete t i) := by
  rw [deleteOp, hget]

theorem lookupF_projectFields_not_mem {names : List String} {r : Rec}
    {k : String} (h : k ∉ names) :
    lookupF (projectFields names r) k = none := by
  induction names with
  | nil => rfl
  | cons n rest ih =>
    simp only [List.mem_cons, not_or] at h
    rw [projectFields, List.filterMap_cons]
    cases hl : lookupF r n with
    | none => exact ih h.2
    | some v =>
      simp only [Option.map]
      rw [lookupF, if_neg (fun e => h.1 e.symm)]
      exact ih h.2

theorem updateOp_val_error {sch : Schema} {d : String} {t : Table} {i : Int}
    {p : Rec} {e : Err} (h : modelValidate sch p = .error e) :
    updateOp sch d t i p = (.error e, t) := by
  rw [updateOp, h]

/-- A key that is not a field of the update model is never touched by the
patch handler. -/
theorem updateOp_not_schema {sch : Schema} {d : String} {t t2 : Table}
    {i : Int} {p r r2 : Rec} (hget : tGet t i = some r)
    (h : updateOp sch d t i p = (.ok r2, t2)) {k : String}
    (hk : schemaHas sch k = false) : lookupF r2 k = lookupF r k := by
  obtain ⟨hr2, _⟩ := updateOp_ok_shape hget h
  subst hr2
  exact lookupF_applyUpdates_not_mem _ _
    (fun hm => by rw [mem_keys_dump_schema hm] at hk; exact Bool.noConfusion hk)

/-- Frame property of the generic patch handler: a schema field present in
the payload is set to the payload's value; a key absent from the payload, or
present but not a schema field, keeps its prior value. -/
theorem updateOp_frame {sch : Schema} {d : String} {t t2 : Table} {i : Int}
    {p r r2 : Rec} (hnd : (p.map Prod.fst).Nodup)
    (hget : tGet t i = some r) (h : updateOp sch d t i p = (.ok r2, t2)) :
    (∀ k v, lookupF p k = some v → schemaHas sch k = true →
      lookupF r2 k = some v) ∧
    (∀ k, k ∉ p.map Prod.fst → lookupF r2 k = lookupF r k) ∧
    (∀ k, schemaHas sch k = false → lookupF r2 k = lookupF r k) := by
  obtain ⟨hr2, _⟩ := updateOp_ok_shape hget h
  subst hr2
  refine ⟨?_, ?_, ?_⟩
  · intro k v hp hk
    exact lookupF_applyUpdates_mem _ _ (nodup_keys_dump hnd)
      ((lookupF_dump hk).trans hp)
  · intro k hk
    exact lookupF_applyUpdates_not_mem _ _
      (fun hm => hk (mem_keys_dump_payload hm))
  · intro k hk
    exact lookupF_applyUpdates_not_mem _ _
      (fun hm => by rw [mem_keys_dump_schema hm] at hk; exact Bool.noConfusion hk)

/-- Pointwise description of the foreign-key nullification performed when a
parent row is deleted: every child row survives; a row referencing the
deleted parent has its foreign-key column set to NULL and every other column
unchanged; other rows are untouched. -/
theorem nullifyFK_mem {t : Table} {fk : String} {i : Int} {r : Rec}
    (hr : r ∈ t) :
    ∃ r2 ∈ nullifyFK t fk i,
      (∀ k, k ≠ fk → lookupF r2 k = lookupF r k) ∧
      (lookupF r fk = some (.int i) → lookupF r2 fk = some .null) ∧
      (¬ lookupF r fk = some (.int i) → lookupF r2 fk = lookupF r fk) := by
  refine ⟨if lookupF r fk = some (.int i) then setF r fk .null else r,
    List.mem_map_of_mem _ hr, ?_, ?_, ?_⟩
  · intro k hk
    split
    · exact lookupF_setF_ne r _ (Ne.symm hk)
    · rfl
  · intro hfk
    rw [if_pos hfk, lookupF_setF_self]
  · intro hfk
    rw [if_neg hfk]

theorem createOp_roundtrip {sch : Schema} {tdef : Rec} {t t2 : Table}
    {p r : Rec} (hid_sch : "id" ∉ schemaKeys sch)
    (hid_def : "id" ∉ tdef.map Prod.fst)
    (h : createOp sch tdef t p = (.ok r, t2)) :
    tGet t2 (nextId t) = some r ∧
    recId r = some (.int (nextId t)) ∧
    (∀ k v, lookupF p k = some v → k ∈ schemaKeys sch →
      lookupF r k = some v) := by
  obtain ⟨fs, hval, hr, ht2⟩ := createOp_ok_inv h
  have hkeys : fs.map Prod.fst = schemaKeys sch :=
    validateFields_keys (modelValidate_ok hval)
  have hfsid : "id" ∉ fs.map Prod.fst := by
    rw [hkeys]
    exact hid_sch
  have hrid : recId r = some (.int (nextId t)) := by
    rw [hr, recId, List.append_assoc,
      lookupF_append_none (lookupF_eq_none_of_not_mem hfsid),
      lookupF_append_none (lookupF_eq_none_of_not_mem hid_def)]
    rfl
  refine ⟨?_, hrid, ?_⟩
  · rw [ht2, tGet_append (tGet_fresh t), tGet, if_pos hrid]
  · intro k v hp hk
    rw [hr, List.append_assoc]
    apply lookupF_append_some
    exact validateFields_lookup (modelValidate_ok hval) hp hk

theorem lookupF_projectFields {names : List String} (hnd : names.Nodup)
    {r : Rec} {k : String} (hk : k ∈ names) :
    lookupF (projectFields names r) k = lookupF r k := by
  induction names with
  | nil => simp at hk
  | cons n rest ih =>
    rw [List.nodup_cons] at hnd
    rcases List.mem_cons.mp hk with rfl | hk2
    · cases hl : lookupF r k with
      | some v =>
        simp [projectFields, List.filterMap_cons, hl, lookupF]
      | none =>
        simp only [projectFields, List.filterMap_cons, hl]
        exact lookupF_projectFields_not_mem hnd.1
    · have hne : n ≠ k := fun e => hnd.1 (e ▸ hk2)
      rw [projectFields, List.filterMap_cons]
      cases hl : lookupF r n with
      | none => exact ih hnd.2 hk2
      | some v =>
        simp only [Option.map]
        rw [lookupF, if_neg hne]
        exact ih hnd.2 hk2

/-! Inversion lemmas relating the per-entity handlers to the generic ops. -/

theorem create_venue_inv {db : DB} {p r : Rec} {db2 : DB}
    (h : create_venue db p = (.ok r, db2)) :
    createOp venueBaseSchema [] db.venues p = (.ok r, db2.venues) := by
  rw [create_venue] at h
  split at h
  · cases h
    assumption
  · cases h

theorem create_schedule_inv {db : DB} {p r : Rec} {db2 : DB}
    (h : create_schedule db p = (.ok r, db2)) :
    createOp scheduleBaseSchema [] db.schedules p = (.ok r, db2.schedules) := by
  rw [create_schedule] at h
  split at h
  · cases h
    assumption
  · cases h

theorem create_section_inv {db : DB} {p r : Rec} {db2 : DB}
    (h : create_section db p = (.ok r, db2)) :
    createOp sectionBaseSchema [("schedule_id", .null)] db.sections p =
      (.ok r, db2.sections) := by
  rw [create_section] at h
  split at h
  · cases h
    assumption
  · cases h

theorem create_event_inv {db : DB} {p r : Rec} {db2 : DB}
    (h : create_event db p = (.ok r, db2)) :
    createOp eventBaseSchema [] db.events p = (.ok r, db2.events) := by
  rw [create_event] at h
  split at h
  · cases h
    assumption
  · cases h

theorem update_venue_inv {db : DB} {i : Int} {p r2 : Rec} {db2 : DB}
    (h : update_venue db i p = (.ok r2, db2)) :
    updateOp venueUpdateSchema "Venue not found" db.venues i p =
      (.ok r2, db2.venues) := by
  rw [update_venue] at h
  split at h
  · cases h
    assumption
  · cases h

theorem update_schedule_inv {db : DB} {i : Int} {p r2 : Rec} {db2 : DB}
    (h : update_schedule db i p = (.ok r2, db2)) :
    updateOp scheduleUpdateSchema "Schedule not found" db.schedules i p =
      (.ok r2, db2.schedules) := by
  rw [update_schedule] at h
  split at h
  · cases h
    assumption
  · cases h

theorem update_section_inv {db : DB} {i : Int} {p r2 : Rec} {db2 : DB}
    (h : update_section db i p = (.ok r2, db2)) :
    updateOp sectionUpdateSchema "Section not found" db.sections i p =
      (.ok r2, db2.sections) := by
  rw [update_section] at h
  split at h
  · cases h
    assumption
  · cases h

theorem update_event_inv {db : DB} {i : Int} {p r2 : Rec} {db2 : DB}
    (h : update_event db i p = (.ok r2, db2)) :
    updateOp eventUpdateSchema "Event not found" db.events i p =
      (.ok r2, db2.events) := by
  rw [update_event] at h
  split at h
  · cases h
    assumption
  · cases h

/-! Concrete stores used by witnesses and counterexamples. -/

/-- A stored Venue row with id 1. -/
def oneVenueRow : Rec :=
  [("name", Val.str "Main Hall"), ("Tel", Val.str "123"),
   ("Address", Val.null), ("Mail", Val.null), ("url", Val.null),
   ("Fax", Val.null), ("Contact", Val.null), ("id", Val.int 1)]

/-- A store holding a single Venue row with id 1. -/
def oneVenueDB : DB :=
  { venues := [oneVenueRow], schedules := [], sections := [], events := [] }

/-- A Schedule row with id 1. -/
def relSchedule : Rec :=
  [("url", Val.str "http://conf.example/"), ("title", Val.str "Conf"),
   ("venue", Val.str "Hall"), ("venue_url", Val.null),
   ("schedule_datetime", Val.str "2024-05-01"), ("locations", Val.dict []),
   ("registration", Val.dict []), ("description", Val.null),
   ("id", Val.int 1)]

/-- A Section row with id 1 whose schedule_id references Schedule 1. -/
def relSection : Rec :=
  [("title", Val.str "Morning"), ("sequence", Val.str "1"),
   ("status", Val.null), ("schedule_id", Val.int 1), ("id", Val.int 1)]

/-- An Event row with id 1 whose section_id references Section 1. -/
def relEvent : Rec :=
  [("start_time", Val.str "09:00"), ("end_time", Val.str "10:00"),
   ("event_date", Val.str "2024-05-01"), ("location", Val.str "hall"),
   ("section_id", Val.int 1), ("id", Val.int 1)]

/-- A store with one Schedule, one Section belonging to it, and one Event
belonging to the Section. -/
def relDB : DB :=
  { venues := [], schedules := [relSchedule], sections := [relSection],
    events := [relEvent] }

/-! Claim C1. -/

/-- C1, counterexample: the claim says every entity's create operation
rejects a payload containing an unknown field, with no row persisted.  For
Venue this is false: VenueBase has no extra='forbid' configuration, so a
payload with the unknown field bogus is accepted, the field is silently
dropped, and a row is persisted. -/
theorem c1_counterexample :
    create_venue emptyDB [("name", Val.str "V"), ("bogus", Val.str "x")] =
      (.ok [("name", Val.str "V"), ("Tel", Val.null), ("Address", Val.null),
            ("Mail", Val.null), ("url", Val.null), ("Fax", Val.null),
            ("Contact", Val.null), ("id", Val.int 1)],
       { venues := [[("name", Val.str "V"), ("Tel", Val.null),
                     ("Address", Val.null), ("Mail", Val.null),
                     ("url", Val.null), ("Fax", Val.null),
                     ("Contact", Val.null), ("id", Val.int 1)]],
         schedules := [], sections := [], events := [] }) := by
  rfl

/-- C1, amended: for Schedule, Section and Event the create operation
rejects a payload containing any field not in the entity's schema, before
handler logic, leaving the store unchanged; for Venue unknown fields are not
rejected but silently ignored: any successfully created Venue row carries
only schema fields plus the assigned id. -/
theorem c1_extra_fields :
    (∀ (db : DB) (p : Rec) (k : String) (v : Val), (k, v) ∈ p →
      schemaHas scheduleBaseSchema k = false →
      create_schedule db p =
        (.error (.validation "Extra inputs are not permitted"), db)) ∧
    (∀ (db : DB) (p : Rec) (k : String) (v : Val), (k, v) ∈ p →
      schemaHas sectionBaseSchema k = false →
      create_section db p =
        (.error (.validation "Extra inputs are not permitted"), db)) ∧
    (∀ (db : DB) (p : Rec) (k : String) (v : Val), (k, v) ∈ p →
      schemaHas eventBaseSchema k = false →
      create_event db p =
        (.error (.validation "Extra inputs are not permitted"), db)) ∧
    (∀ (db : DB) (p r : Rec) (db2 : DB), create_venue db p = (.ok r, db2) →
      ∀ k, k ∈ r.map Prod.fst → k ∈ schemaKeys venueBaseSchema ++ ["id"]) := by
  refine ⟨?_, ?_, ?_, ?_⟩
  · intro db p k v hkv hk
    simp only [create_schedule,
      createOp_error_shape (modelValidate_extra_error rfl hkv hk)]
  · intro db p k v hkv hk
    simp only [create_section,
      createOp_error_shape (modelValidate_extra_error rfl hkv hk)]
  · intro db p k v hkv hk
    simp only [create_event,
      createOp_error_shape (modelValidate_extra_error rfl hkv hk)]
  · intro db p r db2 h k hk
    obtain ⟨fs, hval, hr, _⟩ := createOp_ok_inv (create_venue_inv h)
    subst hr
    have hkeys := validateFields_keys (modelValidate_ok hval)
    simp only [List.map_append, List.mem_append] at hk
    rcases hk with (hk | hk) | hk
    · rw [hkeys] at hk
      exact List.mem_append_left _ hk
    · simp at hk
    · exact List.mem_append_right _ hk

/-- C1, witness for the amended theorem at concrete inputs: a Schedule
create payload carrying only the unknown key bogus is rejected with the
store unchanged. -/
theorem c1_witness :
    create_schedule emptyDB [("bogus", Val.str "x")] =
      (.error (.validation "Extra inputs are not permitted"), emptyDB) :=
  c1_extra_fields.1 emptyDB [("bogus", Val.str "x")] "bogus" (Val.str "x")
    (List.mem_singleton.mpr rfl) (by decide)

/-! Claim C2. -/

/-- C2, failing input: on a store where Event 1 has section_id = 1,
GET /sections/1 returns an empty eventes list even though the Event row
references the Section (the response model field is named eventes while the
relationship attribute is named events, so from_attributes population always
falls back to the field default []); GET /schedules/1 on the same store does
return its Sections, because there the field name sections matches the
relationship name.  The claim (and the spec) say the Section fetch returns
the referencing Events, which is clearly the intent of the response model
SectionPublicWithEventes; the field-name mismatch in the code breaks it. -/
theorem c2_section_eventes_empty :
    childrenOf relDB.events "section_id" 1 = [relEvent] ∧
    read_section relDB 1 =
      .ok { base := [("title", Val.str "Morning"), ("sequence", Val.str "1"),
                     ("status", Val.null), ("id", Val.int 1)],
            eventes := [] } ∧
    read_schedule relDB 1 =
      .ok { base := relSchedule,
            sections := [[("title", Val.str "Morning"),
                          ("sequence", Val.str "1"), ("status", Val.null),
                          ("id", Val.int 1)]] } := by
  refine ⟨rfl, rfl, rfl⟩

/-! Claim C9. -/

/-- C9, counterexample: the claim says creating a Section with a payload
that omits status succeeds.  It is rejected: SectionBase annotates status
as Optional[str] with no default, which under pydantic v2 is a required
(nullable) field, so validation fails before the handler runs. -/
theorem c9_counterexample :
    create_section emptyDB
        [("title", Val.str "Keynotes"), ("sequence", Val.str "1")] =
      (.error (.validation "status: Field required"), emptyDB) := by
  rfl

/-- C9, amended: status is nullable but not omittable.  A Section create
payload lacking the status key is rejected by validation with the store
unchanged; a payload carrying status explicitly null succeeds and persists
a row whose status is null (and whose schedule_id defaults to null). -/
theorem c9_status_required :
    (∀ (db : DB) (p : Rec), lookupF p "status" = none →
      ∃ m, create_section db p = (.error (.validation m), db)) ∧
    (∀ (db : DB) (t s : String),
      (create_section db
          [("title", Val.str t), ("sequence", Val.str s),
           ("status", Val.null)]).1 =
        .ok [("title", Val.str t), ("sequence", Val.str s),
             ("status", Val.null), ("schedule_id", Val.null),
             ("id", Val.int (nextId db.sections))]) := by
  constructor
  · intro db p hmiss
    obtain ⟨m, hval⟩ :=
      @modelValidate_required_error sectionBaseSchema p ⟨"status", none⟩
        (by decide) rfl hmiss
    exact ⟨m, by simp only [create_section, createOp_error_shape hval]⟩
  · intro db t s
    have hval : modelValidate sectionBaseSchema
        [("title", Val.str t), ("sequence", Val.str s),
         ("status", Val.null)] =
        .ok [("title", Val.str t), ("sequence", Val.str s),
             ("status", Val.null)] := by
      simp [modelValidate, hasExtraKey, sectionBaseSchema, validateFields,
        lookupF]
    simp only [create_section, createOp_ok_shape hval]
    rfl

/-- C9, witness for the amended theorem: the omitted-status payload is
rejected with the store unchanged. -/
theorem c9_witness :
    ∃ m, create_section emptyDB
        [("title", Val.str "Keynotes"), ("sequence", Val.str "1")] =
      (.error (.validation m), emptyDB) :=
  c9_status_required.1 emptyDB
    [("title", Val.str "Keynotes"), ("sequence", Val.str "1")] rfl

/-! Claim C3. -/

/-- C3, confirmed: for every entity, a patch with a partial payload applies
exactly the schema fields explicitly present in the payload (each set to the
payload's value) and leaves every other field of the stored record at its
prior value — both the schema fields omitted from the payload and any
non-schema key. -/
theorem c3_partial_update :
    (∀ (db : DB) (i : Int) (p r r2 : Rec) (db2 : DB),
      (p.map Prod.fst).Nodup → tGet db.venues i = some r →
      update_venue db i p = (.ok r2, db2) →
      (∀ k v, lookupF p k = some v → schemaHas venueUpdateSchema k = true →
        lookupF r2 k = some v) ∧
      (∀ k, k ∉ p.map Prod.fst → lookupF r2 k = lookupF r k) ∧
      (∀ k, schemaHas venueUpdateSchema k = false →
        lookupF r2 k = lookupF r k)) ∧
    (∀ (db : DB) (i : Int) (p r r2 : Rec) (db2 : DB),
      (p.map Prod.fst).Nodup → tGet db.schedules i = some r →
      update_schedule db i p = (.ok r2, db2) →
      (∀ k v, lookupF p k = some v → schemaHas scheduleUpdateSchema k = true →
        lookupF r2 k = some v) ∧
      (∀ k, k ∉ p.map Prod.fst → lookupF r2 k = lookupF r k) ∧
      (∀ k, schemaHas scheduleUpdateSchema k = false →
        lookupF r2 k = lookupF r k)) ∧
    (∀ (db : DB) (i : Int) (p r r2 : Rec) (db2 : DB),
      (p.map Prod.fst).Nodup → tGet db.sections i = some r →
      update_section db i p = (.ok r2, db2) →
      (∀ k v, lookupF p k = some v → schemaHas sectionUpdateSchema k = true →
        lookupF r2 k = some v) ∧
      (∀ k, k ∉ p.map Prod.fst → lookupF r2 k = lookupF r k) ∧
      (∀ k, schemaHas sectionUpdateSchema k = false →
        lookupF r2 k = lookupF r k)) ∧
    (∀ (db : DB) (i : Int) (p r r2 : Rec) (db2 : DB),
      (p.map Prod.fst).Nodup → tGet db.events i = some r →
      update_event db i p = (.ok r2, db2) →
      (∀ k v, lookupF p k = some v → schemaHas eventUpdateSchema k = true →
        lookupF r2 k = some v) ∧
      (∀ k, k ∉ p.map Prod.fst → lookupF r2 k = lookupF r k) ∧
      (∀ k, schemaHas eventUpdateSchema k = false →
        lookupF r2 k = lookupF r k)) := by
  refine ⟨?_, ?_, ?_, ?_⟩ <;>
    exact fun db i p r r2 db2 hnd hget h =>
      updateOp_frame hnd hget (by
        first
        | exact update_venue_inv h
        | exact update_schedule_inv h
        | exact update_section_inv h
        | exact update_event_inv h)

/-- A Venue patch of name alone, applied to oneVenueDB: the resulting row. -/
def c3updated : Rec :=
  [("name", Val.str "N2"), ("Tel", Val.str "123"), ("Address", Val.null),
   ("Mail", Val.null), ("url", Val.null), ("Fax", Val.null),
   ("Contact", Val.null), ("id", Val.int 1)]

/-- C3, witness: patching Venue 1 of oneVenueDB with only a name sets the
name to the new value and leaves the omitted Tel field at its prior value. -/
theorem c3_witness :
    lookupF c3updated "name" = some (Val.str "N2") ∧
    lookupF c3updated "Tel" = some (Val.str "123") := by
  have h := c3_partial_update.1 oneVenueDB 1 [("name", Val.str "N2")]
    oneVenueRow c3updated
    { venues := [c3updated], schedules := [], sections := [], events := [] }
    (by decide) rfl rfl
  refine ⟨h.1 "name" (Val.str "N2") rfl (by decide), ?_⟩
  rw [h.2.1 "Tel" (by decide)]
  rfl

/-! Claim C4. -/

/-- C4, confirmed: for every entity and every id absent from the store,
get-by-id fails with HTTP 404, patch fails with HTTP 404 (when its payload
passes validation) and leaves the store unchanged in every case, and delete
fails with HTTP 404 leaving the store unchanged. -/
theorem c4_notfound :
    (∀ (db : DB) (i : Int), tGet db.venues i = none →
      read_venue db i = .error (.http 404 "Venue not found") ∧
      (∀ p fs, modelValidate venueUpdateSchema p = .ok fs →
        update_venue db i p = (.error (.http 404 "Venue not found"), db)) ∧
      (∀ p, (update_venue db i p).2 = db) ∧
      delete_venue db i = (.error (.http 404 "Venue not found"), db)) ∧
    (∀ (db : DB) (i : Int), tGet db.schedules i = none →
      read_schedule db i = .error (.http 404 "Schedule not found") ∧
      (∀ p fs, modelValidate scheduleUpdateSchema p = .ok fs →
        update_schedule db i p =
          (.error (.http 404 "Schedule not found"), db)) ∧
      (∀ p, (update_schedule db i p).2 = db) ∧
      delete_schedule db i = (.error (.http 404 "Schedule not found"), db)) ∧
    (∀ (db : DB) (i : Int), tGet db.sections i = none →
      read_section db i = .error (.http 404 "Section not found") ∧
      (∀ p fs, modelValidate sectionUpdateSchema p = .ok fs →
        update_section db i p =
          (.error (.http 404 "Section not found"), db)) ∧
      (∀ p, (update_section db i p).2 = db) ∧
      delete_section db i = (.error (.http 404 "Section not found"), db)) ∧
    (∀ (db : DB) (i : Int), tGet db.events i = none →
      read_event db i = .error (.http 404 "Event not found") ∧
      (∀ p fs, modelValidate eventUpdateSchema p = .ok fs →
        update_event db i p = (.error (.http 404 "Event not found"), db)) ∧
      (∀ p, (update_event db i p).2 = db) ∧
      delete_event db i = (.error (.http 404 "Event not found"), db)) := by
  refine ⟨?_, ?_, ?_, ?_⟩
  · intro db i hget
    refine ⟨getOp_404 hget, ?_, ?_, ?_⟩
    · intro p fs hval
      simp only [update_venue, updateOp_404 hget hval]
    · intro p
      cases hval : modelValidate venueUpdateSchema p with
      | error e => simp only [update_venue, updateOp_val_error hval]
      | ok fs => simp only [update_venue, updateOp_404 hget hval]
    · simp only [delete_venue, deleteOp_404 hget]
  · intro db i hget
    refine ⟨by simp only [read_schedule, hget], ?_, ?_, ?_⟩
    · intro p fs hval
      simp only [update_schedule, updateOp_404 hget hval]
    · intro p
      cases hval : modelValidate scheduleUpdateSchema p with
      | error e => simp only [update_schedule, updateOp_val_error hval]
      | ok fs => simp only [update_schedule, updateOp_404 hget hval]
    · simp only [delete_schedule, deleteOp_404 hget]
  · intro db i hget
    refine ⟨by simp only [read_section, hget], ?_, ?_, ?_⟩
    · intro p fs hval
      simp only [update_section, updateOp_404 hget hval]
    · intro p
      cases hval : modelValidate sectionUpdateSchema p with
      | error e => simp only [update_section, updateOp_val_error hval]
      | ok fs => simp only [update_section, updateOp_404 hget hval]
    · simp only [delete_section, deleteOp_404 hget]
  · intro db i hget
    refine ⟨getOp_404 hget, ?_, ?_, ?_⟩
    · intro p fs hval
      simp only [update_event, updateOp_404 hget hval]
    · intro p
      cases hval : modelValidate eventUpdateSchema p with
      | error e => simp only [update_event, updateOp_val_error hval]
      | ok fs => simp only [update_event, updateOp_404 hget hval]
    · simp only [delete_event, deleteOp_404 hget]

/-- C4, witness on the empty store at id 1: fetch, empty-payload patch and
delete of a missing Venue all fail with HTTP 404 and leave the store
unchanged. -/
theorem c4_witness :
    read_venue emptyDB 1 = .error (.http 404 "Venue not found") ∧
    update_venue emptyDB 1 [] =
      (.error (.http 404 "Venue not found"), emptyDB) ∧
    delete_venue emptyDB 1 =
      (.error (.http 404 "Venue not found"), emptyDB) :=
  ⟨(c4_notfound.1 emptyDB 1 rfl).1,
   (c4_notfound.1 emptyDB 1 rfl).2.1 []
     [("name", Val.null), ("Tel", Val.null), ("Address", Val.null),
      ("Mail", Val.null), ("url", Val.null), ("Fax", Val.null),
      ("Contact", Val.null)] rfl,
   (c4_notfound.1 emptyDB 1 rfl).2.2.2⟩

/-! Claim C5. -/

/-- C5, counterexample: the limit parameter is only bounded above
(Query(default=100, le=100)), so a request with limit = -1 passes
validation; SQLite places no bound on a negative LIMIT, so the whole table
is returned — here 1 row, which is more than the requested limit of -1.
The claim's statement that a list request never returns more than the
requested limit of records is therefore false at limit = -1. -/
theorem c5_counterexample :
    read_venues oneVenueDB 0 (-1) = .ok [oneVenueRow] ∧
    ¬ (([oneVenueRow].length : Int) ≤ -1) := by
  exact ⟨rfl, by decide⟩

/-- C5, amended: for every entity, a list request with 0 ≤ limit ≤ 100
returns the page drop offset / take limit of the table in storage order,
never more than limit records; a limit above 100 is rejected by validation;
a negative limit is accepted and returns all records from the offset on
(no bound); list parameters default to offset 0 and limit 100. -/
theorem c5_pagination :
    ∀ (db : DB) (offset limit : Int),
      (0 ≤ limit → limit ≤ 100 →
        read_venues db offset limit =
          .ok (sqlLimit limit (sqlOffset offset db.venues)) ∧
        read_schedules db offset limit =
          .ok (sqlLimit limit (sqlOffset offset db.schedules)) ∧
        read_sections db offset limit =
          .ok (sqlLimit limit (sqlOffset offset db.sections)) ∧
        read_events db offset limit =
          .ok (sqlLimit limit (sqlOffset offset db.events)) ∧
        (∀ t : Table,
          sqlLimit limit (sqlOffset offset t) =
            (t.drop offset.toNat).take limit.toNat ∧
          ((sqlLimit limit (sqlOffset offset t)).length : Int) ≤ limit)) ∧
      (100 < limit →
        read_venues db offset limit =
          .error (.validation "Input should be less than or equal to 100") ∧
        read_schedules db offset limit =
          .error (.validation "Input should be less than or equal to 100") ∧
        read_sections db offset limit =
          .error (.validation "Input should be less than or equal to 100") ∧
        read_events db offset limit =
          .error (.validation "Input should be less than or equal to 100")) ∧
      (limit < 0 →
        read_venues db offset limit = .ok (sqlOffset offset db.venues) ∧
        read_schedules db offset limit = .ok (sqlOffset offset db.schedules) ∧
        read_sections db offset limit = .ok (sqlOffset offset db.sections) ∧
        read_events db offset limit = .ok (sqlOffset offset db.events)) := by
  intro db offset limit
  refine ⟨?_, ?_, ?_⟩
  · intro h0 hle
    have h1 : ¬ 100 < limit := not_lt.mpr hle
    have h2 : ¬ limit < 0 := not_lt.mpr h0
    refine ⟨?_, ?_, ?_, ?_, ?_⟩
    · simp only [read_venues, listOp, if_neg h1]
    · simp only [read_schedules, listOp, if_neg h1]
    · simp only [read_sections, listOp, if_neg h1]
    · simp only [read_events, listOp, if_neg h1]
    · intro t
      constructor
      · rw [sqlLimit, if_neg h2]
        rfl
      · rw [sqlLimit, if_neg h2]
        have h3 := List.length_take_le limit.toNat (sqlOffset offset t)
        omega
  · intro h100
    refine ⟨?_, ?_, ?_, ?_⟩
    · simp only [read_venues, listOp, if_pos h100]
    · simp only [read_schedules, listOp, if_pos h100]
    · simp only [read_sections, listOp, if_pos h100]
    · simp only [read_events, listOp, if_pos h100]
  · intro hneg
    have h1 : ¬ 100 < limit := by omega
    refine ⟨?_, ?_, ?_, ?_⟩
    · simp only [read_venues, listOp, if_neg h1, sqlLimit, if_pos hneg]
    · simp only [read_schedules, listOp, if_neg h1, sqlLimit, if_pos hneg]
    · simp only [read_sections, listOp, if_neg h1, sqlLimit, if_pos hneg]
    · simp only [read_events, listOp, if_neg h1, sqlLimit, if_pos hneg]

/-- C5, witness: listing Venues of oneVenueDB with offset 0 and the default
limit 100 returns the in-range page. -/
theorem c5_witness :
    read_venues oneVenueDB 0 100 =
      .ok (sqlLimit 100 (sqlOffset 0 oneVenueDB.venues)) :=
  ((c5_pagination oneVenueDB 0 100).1 (by decide) (by decide)).1

/-! Claim C6. -/

/-- C6, confirmed: for every entity, creating a record from a valid payload
and then fetching it by the identifier returned from the create yields a
record carrying exactly the payload's field values plus the server-assigned
id (for Section and Schedule the fetch response is the serialized form, so
the statement is over its projected base fields). -/
theorem c6_create_then_fetch :
    (∀ (db : DB) (p r : Rec) (db2 : DB), create_venue db p = (.ok r, db2) →
      read_venue db2 (nextId db.venues) = .ok r ∧
      recId r = some (.int (nextId db.venues)) ∧
      (∀ k v, lookupF p k = some v → k ∈ schemaKeys venueBaseSchema →
        lookupF r k = some v)) ∧
    (∀ (db : DB) (p r : Rec) (db2 : DB), create_event db p = (.ok r, db2) →
      read_event db2 (nextId db.events) = .ok r ∧
      recId r = some (.int (nextId db.events)) ∧
      (∀ k v, lookupF p k = some v → k ∈ schemaKeys eventBaseSchema →
        lookupF r k = some v)) ∧
    (∀ (db : DB) (p r : Rec) (db2 : DB), create_section db p = (.ok r, db2) →
      read_section db2 (nextId db.sections) =
        .ok { base := projectFields sectionPublicFields r, eventes := [] } ∧
      lookupF (projectFields sectionPublicFields r) "id" =
        some (.int (nextId db.sections)) ∧
      (∀ k v, lookupF p k = some v → k ∈ schemaKeys sectionBaseSchema →
        lookupF (projectFields sectionPublicFields r) k = some v)) ∧
    (∀ (db : DB) (p r : Rec) (db2 : DB), create_schedule db p = (.ok r, db2) →
      read_schedule db2 (nextId db.schedules) =
        .ok { base := projectFields schedulePublicFields r,
              sections := (childrenOf db2.sections "schedule_id"
                  (nextId db.schedules)).map
                (projectFields sectionPublicFields) } ∧
      lookupF (projectFields schedulePublicFields r) "id" =
        some (.int (nextId db.schedules)) ∧
      (∀ k v, lookupF p k = some v → k ∈ schemaKeys scheduleBaseSchema →
        lookupF (projectFields schedulePublicFields r) k = some v)) := by
  refine ⟨?_, ?_, ?_, ?_⟩
  · intro db p r db2 h
    obtain ⟨hget, hrid, hvals⟩ :=
      createOp_roundtrip (by decide) (by decide) (create_venue_inv h)
    exact ⟨getOp_ok hget, hrid, hvals⟩
  · intro db p r db2 h
    obtain ⟨hget, hrid, hvals⟩ :=
      createOp_roundtrip (by decide) (by decide) (create_event_inv h)
    exact ⟨getOp_ok hget, hrid, hvals⟩
  · intro db p r db2 h
    obtain ⟨hget, hrid, hvals⟩ :=
      createOp_roundtrip (by decide) (by decide) (create_section_inv h)
    have hsub : ∀ x ∈ schemaKeys sectionBaseSchema,
        x ∈ sectionPublicFields := by decide
    refine ⟨?_, ?_, ?_⟩
    · simp [read_section, hget, sectionListAttr]
    · rw [lookupF_projectFields (by decide) (by decide)]
      exact hrid
    · intro k v hp hk
      rw [lookupF_projectFields (by decide) (hsub k hk)]
      exact hvals k v hp hk
  · intro db p r db2 h
    obtain ⟨hget, hrid, hvals⟩ :=
      createOp_roundtrip (by decide) (by decide) (create_schedule_inv h)
    have hsub : ∀ x ∈ schemaKeys scheduleBaseSchema,
        x ∈ schedulePublicFields := by decide
    refine ⟨?_, ?_, ?_⟩
    · simp [read_schedule, hget, scheduleListAttr]
    · rw [lookupF_projectFields (by decide) (by decide)]
      exact hrid
    · intro k v hp hk
      rw [lookupF_projectFields (by decide) (hsub k hk)]
      exact hvals k v hp hk

/-- The Venue row persisted by creating name V on the empty store. -/
def c6row : Rec :=
  [("name", Val.str "V"), ("Tel", Val.null), ("Address", Val.null),
   ("Mail", Val.null), ("url", Val.null), ("Fax", Val.null),
   ("Contact", Val.null), ("id", Val.int 1)]

/-- The store after creating that Venue. -/
def c6db2 : DB :=
  { venues := [c6row], schedules := [], sections := [], events := [] }

/-- C6, witness: creating a Venue named V on the empty store and fetching
id 1 returns the created row. -/
theorem c6_witness : read_venue c6db2 1 = .ok c6row :=
  (c6_create_then_fetch.1 emptyDB [("name", Val.str "V")] c6row c6db2 rfl).1

/-! Claim C7. -/

/-- C7, confirmed: for every entity, deleting an existing record returns the
acknowledgement object with ok set to true, and a subsequent fetch of the
same id fails with HTTP 404. -/
theorem c7_delete_then_fetch :
    (∀ (db : DB) (i : Int) (r : Rec), tGet db.venues i = some r →
      (delete_venue db i).1 = .ok [("ok", Val.bool true)] ∧
      read_venue (delete_venue db i).2 i =
        .error (.http 404 "Venue not found")) ∧
    (∀ (db : DB) (i : Int) (r : Rec), tGet db.schedules i = some r →
      (delete_schedule db i).1 = .ok [("ok", Val.bool true)] ∧
      read_schedule (delete_schedule db i).2 i =
        .error (.http 404 "Schedule not found")) ∧
    (∀ (db : DB) (i : Int) (r : Rec), tGet db.sections i = some r →
      (delete_section db i).1 = .ok [("ok", Val.bool true)] ∧
      read_section (delete_section db i).2 i =
        .error (.http 404 "Section not found")) ∧
    (∀ (db : DB) (i : Int) (r : Rec), tGet db.events i = some r →
      (delete_event db i).1 = .ok [("ok", Val.bool true)] ∧
      read_event (delete_event db i).2 i =
        .error (.http 404 "Event not found")) := by
  refine ⟨?_, ?_, ?_, ?_⟩
  · intro db i r hget
    rw [delete_venue, deleteOp_ok hget]
    exact ⟨rfl, getOp_404 (tGet_tDelete_self _ _)⟩
  · intro db i r hget
    rw [delete_schedule, deleteOp_ok hget]
    exact ⟨rfl, by simp only [read_schedule, tGet_tDelete_self]⟩
  · intro db i r hget
    rw [delete_section, deleteOp_ok hget]
    exact ⟨rfl, by simp only [read_section, tGet_tDelete_self]⟩
  · intro db i r hget
    rw [delete_event, deleteOp_ok hget]
    exact ⟨rfl, getOp_404 (tGet_tDelete_self _ _)⟩

/-- C7, witness: deleting Venue 1 of oneVenueDB acknowledges with ok = true
and the subsequent fetch of id 1 fails with HTTP 404. -/
theorem c7_witness :
    (delete_venue oneVenueDB 1).1 = .ok [("ok", Val.bool true)] ∧
    read_venue (delete_venue oneVenueDB 1).2 1 =
      .error (.http 404 "Venue not found") :=
  c7_delete_then_fetch.1 oneVenueDB 1 oneVenueRow rfl

/-! Claim C8. -/

/-- The Section row of relDB after its parent Schedule is deleted: the
schedule_id column has been set to NULL. -/
def relSectionNulled : Rec :=
  [("title", Val.str "Morning"), ("sequence", Val.str "1"),
   ("status", Val.null), ("schedule_id", Val.null), ("id", Val.int 1)]

/-- C8, counterexample: the claim says a Section that referenced a deleted
Schedule retains its schedule_id value unchanged as a dangling reference.
In fact SQLAlchemy's default relationship cascade de-associates loaded
children on parent deletion: after deleting Schedule 1, the Section still
exists but its schedule_id is NULL, not the prior value 1. -/
theorem c8_counterexample :
    lookupF relSection "schedule_id" = some (Val.int 1) ∧
    (delete_schedule relDB 1).2.sections = [relSectionNulled] ∧
    lookupF relSectionNulled "schedule_id" = some Val.null ∧
    some Val.null ≠ some (Val.int 1) := by
  exact ⟨rfl, rfl, rfl, by decide⟩

/-- C8, amended: deleting a parent does not delete its children — every
child row survives (same count, same id, all other columns unchanged) — but
the children do not keep a dangling foreign key: a child that referenced the
deleted parent has its foreign-key column set to NULL, and children
referencing other parents keep their value; likewise for deleting a Section
with respect to its Events. -/
theorem c8_delete_parent_nullifies :
    (∀ (db : DB) (i : Int) (r : Rec), tGet db.schedules i = some r →
      (delete_schedule db i).2.sections.length = db.sections.length ∧
      ∀ s ∈ db.sections, ∃ s2 ∈ (delete_schedule db i).2.sections,
        (∀ k, k ≠ "schedule_id" → lookupF s2 k = lookupF s k) ∧
        (lookupF s "schedule_id" = some (.int i) →
          lookupF s2 "schedule_id" = some Val.null) ∧
        (¬ lookupF s "schedule_id" = some (.int i) →
          lookupF s2 "schedule_id" = lookupF s "schedule_id")) ∧
    (∀ (db : DB) (i : Int) (r : Rec), tGet db.sections i = some r →
      (delete_section db i).2.events.length = db.events.length ∧
      ∀ s ∈ db.events, ∃ s2 ∈ (delete_section db i).2.events,
        (∀ k, k ≠ "section_id" → lookupF s2 k = lookupF s k) ∧
        (lookupF s "section_id" = some (.int i) →
          lookupF s2 "section_id" = some Val.null) ∧
        (¬ lookupF s "section_id" = some (.int i) →
          lookupF s2 "section_id" = lookupF s "section_id")) := by
  constructor
  · intro db i r hget
    rw [delete_schedule, deleteOp_ok hget]
    constructor
    · have hlen : (nullifyFK db.sections "schedule_id" i).length =
          db.sections.length := by
        rw [nullifyFK]
        exact List.length_map _ _
      exact hlen
    · intro s hs
      exact nullifyFK_mem hs
  · intro db i r hget
    rw [delete_section, deleteOp_ok hget]
    constructor
    · have hlen : (nullifyFK db.events "section_id" i).length =
          db.events.length := by
        rw [nullifyFK]
        exact List.length_map _ _
      exact hlen
    · intro s hs
      exact nullifyFK_mem hs

/-- C8, witness: deleting Schedule 1 of relDB keeps the full count of
Section rows. -/
theorem c8_witness :
    (delete_schedule relDB 1).2.sections.length = relDB.sections.length :=
  (c8_delete_parent_nullifies.1 relDB 1 relSchedule rfl).1

/-! Claim C10. -/

/-- C10, confirmed: the update models of Venue, Schedule and Event declare
no id field, so a successful patch always leaves the stored record's id
unchanged; SectionUpdate does declare an id field, and a patch carrying id
overwrites the stored Section's primary key with the client-supplied value
(the no-collision hypothesis restricts to the domain where the UPDATE is
not stopped by the primary-key uniqueness constraint). -/
theorem c10_id_update :
    (schemaHas venueUpdateSchema "id" = false ∧
     schemaHas scheduleUpdateSchema "id" = false ∧
     schemaHas eventUpdateSchema "id" = false ∧
     schemaHas sectionUpdateSchema "id" = true) ∧
    (∀ (db : DB) (i : Int) (p r r2 : Rec) (db2 : DB),
      tGet db.venues i = some r → update_venue db i p = (.ok r2, db2) →
      lookupF r2 "id" = lookupF r "id") ∧
    (∀ (db : DB) (i : Int) (p r r2 : Rec) (db2 : DB),
      tGet db.schedules i = some r → update_schedule db i p = (.ok r2, db2) →
      lookupF r2 "id" = lookupF r "id") ∧
    (∀ (db : DB) (i : Int) (p r r2 : Rec) (db2 : DB),
      tGet db.events i = some r → update_event db i p = (.ok r2, db2) →
      lookupF r2 "id" = lookupF r "id") ∧
    (∀ (db : DB) (i j : Int) (p r r2 : Rec) (db2 : DB),
      (p.map Prod.fst).Nodup → lookupF p "id" = some (.int j) →
      (∀ x ∈ db.sections, ¬ recId x = some (.int j)) →
      tGet db.sections i = some r →
      update_section db i p = (.ok r2, db2) →
      lookupF r2 "id" = some (.int j) ∧ r2 ∈ db2.sections) := by
  refine ⟨⟨by decide, by decide, by decide, by decide⟩, ?_, ?_, ?_, ?_⟩
  · intro db i p r r2 db2 hget h
    exact updateOp_not_schema hget (update_venue_inv h) (by decide)
  · intro db i p r r2 db2 hget h
    exact updateOp_not_schema hget (update_schedule_inv h) (by decide)
  · intro db i p r r2 db2 hget h
    exact updateOp_not_schema hget (update_event_inv h) (by decide)
  · intro db i j p r r2 db2 hnd hpid hfresh hget h
    have hop := update_section_inv h
    refine ⟨(updateOp_frame hnd hget hop).1 "id" _ hpid (by decide), ?_⟩
    obtain ⟨_, ht2⟩ := updateOp_ok_shape hget hop
    obtain ⟨hmem, hid⟩ := tGet_mem hget
    have : r2 ∈ db2.sections := by
      have h2 : db2.sections =
          db.sections.map
            (fun x => if recId x = some (.int i) then r2 else x) := ht2
      rw [h2]
      exact List.mem_map.mpr ⟨r, hmem, by rw [if_pos hid]⟩
    exact this

/-- The Section row of relDB after a patch that carries id 7. -/
def c10row : Rec :=
  [("title", Val.str "Morning"), ("sequence", Val.str "1"),
   ("status", Val.null), ("schedule_id", Val.int 1), ("id", Val.int 7)]

/-- C10, witness: patching Section 1 of relDB with a payload carrying id 7
stores the row under primary key 7. -/
theorem c10_witness :
    lookupF c10row "id" = some (Val.int 7) ∧
    c10row ∈ ({ venues := [], schedules := [relSchedule],
                sections := [c10row], events := [relEvent] } : DB).sections :=
  c10_id_update.2.2.2.2 relDB 1 7 [("id", Val.int 7)] relSection c10row
    { venues := [], schedules := [relSchedule], sections := [c10row],
      events := [relEvent] }
    (by decide) rfl (by decide) rfl rfl

end App
